import Mathlib

/-!
Verification of the go_mongo person-CRUD service (`src/cmd/main.go`) against
its natural-language specification.

The Go program is shallowly embedded: the Mongo collection is a list of
stored documents, the five HTTP handlers are pure functions from the store
(and the request path id / decoded body) to an HTTP response, and the
external collaborators (the mongo driver, `encoding/json`, `net/http`) are
modelled by their documented behaviour where the handlers depend on them:

* `primitive.ObjectIDFromHex` — 24-character hex parsing (`objectIDFromHex`);
* `primitive.ObjectID.UnmarshalJSON` — a JSON `id` field that is a valid
  24-hex string decodes to that ObjectID, absent/empty decodes to the zero
  ObjectID, anything else is a decode error (`decodeIdField`);
* BSON equality in query filters is typed: a string value never equals an
  ObjectID value (`BsonId` with constructor-disjoint equality);
* `mongo.InsertOne` — when the `_id` of the document is omitted (the struct tag
  `bson:"_id,omitempty"` omits the zero ObjectID) the driver generates a
  fresh ObjectID, while a non-zero `ID` field is used as `_id`; inserting
  an `_id` already present fails with the E11000 duplicate key error of the
  mandatory unique `_id` index (`insertOne`);
* `mongo.UpdateOne` with a `$set` of the whole struct — replaces the
  non-id fields of the first matching document, matching zero documents is
  success, and `$set` of a different `_id` on a matched document is a
  server error (`updateOne`);
* `mongo.DeleteOne` — removes the first matching document, zero matches is
  success (`deleteOne`);
* `net/http.Error` (used by `handleError`) — writes status 500, sets
  `Content-Type: text/plain; charset=utf-8`, and writes the message
  followed by a newline;
* `encoding/json` — a `nil` slice marshals to the JSON literal `null`, and
  the struct tag `json:"id,omitempty"` never omits a `[12]byte` array, so
  the `id` field is always present in output.
-/

/-- A BSON ObjectID: twelve bytes (`primitive.ObjectID` is `[12]byte`).
The well-formedness predicate `ObjectId.wf` states exactly that. -/
structure ObjectId where
  bytes : List Nat
deriving DecidableEq

/-- Well-formed ObjectID: twelve bytes, each below 256. -/
def ObjectId.wf (o : ObjectId) : Prop :=
  o.bytes.length = 12 ∧ ∀ b ∈ o.bytes, b < 256

instance (o : ObjectId) : Decidable o.wf := by
  unfold ObjectId.wf; infer_instance

/-- The zero value of `primitive.ObjectID` (`NilObjectID`): twelve zero bytes. -/
def zeroOid : ObjectId := ⟨List.replicate 12 0⟩

/-- Lower-case hex digit for a nibble, as `encoding/hex` emits. -/
def nibbleToChar (n : Nat) : Char :=
  if n < 10 then Char.ofNat (48 + n) else Char.ofNat (87 + n)

/-- Two lower-case hex digits for one byte. -/
def byteToHex (b : Nat) : List Char :=
  [nibbleToChar (b / 16), nibbleToChar (b % 16)]

/-- Hex rendering of an ObjectID (`primitive.ObjectID.Hex`), the canonical
string form used in URLs and JSON. -/
def oidHex (o : ObjectId) : String :=
  String.mk (o.bytes.flatMap byteToHex)

/-- Value of one hex digit, accepting both cases as `encoding/hex` does. -/
def hexDigitVal (c : Char) : Option Nat :=
  if 48 ≤ c.toNat ∧ c.toNat ≤ 57 then some (c.toNat - 48)
  else if 97 ≤ c.toNat ∧ c.toNat ≤ 102 then some (c.toNat - 87)
  else if 65 ≤ c.toNat ∧ c.toNat ≤ 70 then some (c.toNat - 55)
  else none

/-- Decode a list of hex characters two at a time into bytes, failing on a
non-hex character or an odd length (`hex.Decode`). -/
def hexPairsToBytes : List Char → Option (List Nat)
  | [] => some []
  | c1 :: c2 :: rest => do
      let hi ← hexDigitVal c1
      let lo ← hexDigitVal c2
      let bs ← hexPairsToBytes rest
      pure ((16 * hi + lo) :: bs)
  | [_] => none

/-- Models `primitive.ObjectIDFromHex` (mongo driver): the string must be
exactly 24 characters of hex, otherwise parsing fails. -/
def objectIDFromHex (s : String) : Option ObjectId :=
  if s.length = 24 then (hexPairsToBytes s.data).map ObjectId.mk else none

theorem hexDigitVal_nibbleToChar : ∀ n < 16, hexDigitVal (nibbleToChar n) = some n := by
  decide

theorem hexPairsToBytes_byteToHex (b : Nat) (hb : b < 256) (rest : List Char)
    (tail : List Nat) (htail : hexPairsToBytes rest = some tail) :
    hexPairsToBytes (byteToHex b ++ rest) = some (b :: tail) := by
  have h1 : hexDigitVal (nibbleToChar (b / 16)) = some (b / 16) :=
    hexDigitVal_nibbleToChar _ (Nat.div_lt_of_lt_mul (by omega))
  have h2 : hexDigitVal (nibbleToChar (b % 16)) = some (b % 16) :=
    hexDigitVal_nibbleToChar _ (Nat.mod_lt _ (by omega))
  have hsum : 16 * (b / 16) + b % 16 = b := Nat.div_add_mod b 16
  simp [byteToHex, hexPairsToBytes, h1, h2, htail, hsum]

theorem hexPairsToBytes_flatMap (l : List Nat) (hl : ∀ b ∈ l, b < 256) :
    hexPairsToBytes (l.flatMap byteToHex) = some l := by
  induction l with
  | nil => rfl
  | cons b rest ih =>
      have hb : b < 256 := hl b (List.mem_cons_self b rest)
      have hrest : ∀ x ∈ rest, x < 256 := fun x hx => hl x (List.mem_cons_of_mem _ hx)
      rw [List.flatMap_cons]
      exact hexPairsToBytes_byteToHex b hb _ rest (ih hrest)

theorem length_flatMap_byteToHex (l : List Nat) :
    (l.flatMap byteToHex).length = 2 * l.length := by
  induction l with
  | nil => rfl
  | cons b rest ih => simp [List.flatMap_cons, byteToHex, ih]; omega

/-- Round trip: parsing the hex rendering of a well-formed ObjectID recovers it. -/
theorem objectIDFromHex_oidHex (o : ObjectId) (h : o.wf) :
    objectIDFromHex (oidHex o) = some o := by
  obtain ⟨hlen, hbytes⟩ := h
  have hdata : (oidHex o).data = o.bytes.flatMap byteToHex := rfl
  have hslen : (oidHex o).length = 24 := by
    show (oidHex o).data.length = 24
    rw [hdata, length_flatMap_byteToHex, hlen]
  rw [objectIDFromHex, if_pos hslen, hdata, hexPairsToBytes_flatMap o.bytes hbytes]
  rfl

/-- A BSON value usable as `_id`. The handlers only ever build filters from
ObjectIDs (`GetPerson`) or raw strings (`UpdatePerson`, `DeletePerson`), so
these two cases suffice. BSON equality is typed: the derived equality makes
`BsonId.str s` never equal to `BsonId.oid o`, as in MongoDB. -/
inductive BsonId where
  | oid (o : ObjectId)
  | str (s : String)
deriving DecidableEq

/-- A document stored in the `people` collection: an `_id` plus the three
persisted fields of the Go `Person` struct. -/
structure StoredDoc where
  id : BsonId
  name : String
  age : Int
  address : String
deriving DecidableEq

/-- The Go `Person` struct (`main.go` lines 20-25). `ID` is a
`primitive.ObjectID` whose zero value is `zeroOid`. -/
structure Person where
  id : ObjectId
  name : String
  age : Int
  address : String
deriving DecidableEq

/-- The JSON request body for Create/Update as the handlers see it before
`json.Decoder.Decode`: either structurally malformed JSON, or an object with
an optional string `id` field and the three data fields. -/
inductive RequestBody where
  | malformed
  | wellFormed (idField : Option String) (name : String) (age : Int) (address : String)

/-- Models `primitive.ObjectID.UnmarshalJSON` for the `id` field of the body:
an absent or null field leaves the zero ObjectID, an empty string decodes to
the zero ObjectID, a valid 24-character hex string decodes to that ObjectID,
and any other string is a decode error. -/
def decodeIdField : Option String → Option ObjectId
  | none => some zeroOid
  | some s => if s.length = 0 then some zeroOid else objectIDFromHex s

/-- Models `json.NewDecoder(r.Body).Decode(&person)`: fails on malformed JSON
or an undecodable `id` field, otherwise yields the Go `Person` value. -/
def decodeBody : RequestBody → Option Person
  | .malformed => none
  | .wellFormed idField name age address =>
      (decodeIdField idField).map fun o => ⟨o, name, age, address⟩

/-- A JSON value, for the response bodies the handlers emit. -/
inductive Json where
  | null
  | str (s : String)
  | num (n : Int)
  | arr (xs : List Json)
  | obj (fields : List (String × Json))

/-- Whether a JSON value is an array. -/
def Json.isArr : Json → Bool
  | .arr _ => true
  | _ => false

/-- The body of an HTTP response: nothing written (Delete), a JSON value
written by `json.NewEncoder(w).Encode`, or plain text written by
`http.Error` (the message followed by a newline). -/
inductive Body where
  | empty
  | jsonVal (j : Json)
  | text (s : String)

/-- An HTTP response as the handlers produce it: status code, the
`Content-Type` header if one was set, and the body. -/
structure HttpResponse where
  status : Nat
  contentType : Option String
  body : Body

/-- The `Content-Type` the handlers set before encoding JSON. -/
def ctJson : String := "application/json"

/-- The `Content-Type` that `net/http.Error` sets on every error response. -/
def ctTextPlain : String := "text/plain; charset=utf-8"

/-- Message of the mongo driver error `ErrInvalidHex`, returned by
`ObjectIDFromHex` on a malformed identifier. -/
def msgInvalidHex : String := "the provided hex string is not a valid ObjectID"

/-- Message of `mongo.ErrNoDocuments`, returned by `FindOne(...).Decode`
when no document matches the filter. -/
def msgNoDocuments : String := "mongo: no documents in result"

/-- Stands for the message of whichever `encoding/json` decode error the
request body produced (the exact text varies with the input). -/
def msgMalformedInput : String := "json: cannot decode request body into a Person"

/-- Stands for the message of a bson decode failure when a stored document
does not fit the `Person` struct. -/
def msgDecodeDoc : String := "bson: cannot decode document into a Person"

/-- Stands for the MongoDB server error raised when an update would modify
the immutable `_id` of a matched document. -/
def msgImmutableId : String := "update would modify the immutable field _id"

/-- Models `handleError` (`main.go` lines 187-190): `http.Error` deletes any
Content-Length, sets `Content-Type: text/plain; charset=utf-8`, writes
status 500 and the message followed by a newline. -/
def handleError (msg : String) : HttpResponse :=
  ⟨500, some ctTextPlain, Body.text (msg ++ "\n")⟩

/-- Models `encoding/json` marshalling of the Go `Person`. The struct tag
`json:"id,omitempty"` never omits the field: `omitempty` treats a
`[12]byte` array as non-empty even when it is all zero, so `id` is always
emitted, as the hex string `ObjectID.MarshalJSON` produces. -/
def encodePerson (p : Person) : Json :=
  Json.obj [("id", Json.str (oidHex p.id)), ("name", Json.str p.name),
            ("age", Json.num p.age), ("address", Json.str p.address)]

/-- Models marshalling of the `people` slice in `GetPeople`: the slice
starts as `nil` and grows by `append`, so an empty result is the `nil`
slice, which `encoding/json` marshals as the JSON literal `null`, not as an
empty array. -/
def encodeGoSlice : List Person → Json
  | [] => Json.null
  | ps => Json.arr (ps.map encodePerson)

/-- Models bson decoding of a stored document into the `Person` struct
(`cur.Decode` / `result.Decode`): the `_id` must be an ObjectID. -/
def decodeDoc (d : StoredDoc) : Option Person :=
  match d.id with
  | .oid o => some ⟨o, d.name, d.age, d.address⟩
  | .str _ => none

/-- Models `collection.FindOne` with filter `{_id: f}`: the first document
whose `_id` equals the filter value under typed BSON equality. -/
def findOne : List StoredDoc → BsonId → Option StoredDoc
  | [], _ => none
  | d :: rest, f => if d.id = f then some d else findOne rest f

/-- The `_id` an insert of a `Person` will use: with the struct tag
`bson:"_id,omitempty"` a zero `ID` is omitted and the driver generates a
fresh ObjectID (passed here as `generated`, making this nondeterministic
choice explicit); a non-zero `ID` is used as `_id`. -/
def insertAssignedId (p : Person) (generated : ObjectId) : ObjectId :=
  if p.id = zeroOid then generated else p.id

/-- Message standing for the E11000 duplicate key write error the server
raises when the inserted `_id` already exists under the unique `_id` index. -/
def msgDuplicateKey : String :=
  "write exception: write errors: E11000 duplicate key error"

/-- Models `collection.InsertOne` of a `Person`: the document is inserted
under `insertAssignedId`, unless a stored document already has that `_id`,
in which case the mandatory unique `_id` index makes the insert fail with a
duplicate key error. On success returns the new store and the `InsertedID`
the driver reports. -/
def insertOne (docs : List StoredDoc) (p : Person) (generated : ObjectId) :
    Except String (List StoredDoc × BsonId) :=
  if docs.any fun d => d.id = BsonId.oid (insertAssignedId p generated) then
    Except.error msgDuplicateKey
  else
    Except.ok
      (docs ++ [⟨BsonId.oid (insertAssignedId p generated), p.name, p.age, p.address⟩],
        BsonId.oid (insertAssignedId p generated))

/-- Replace the non-id fields of a stored document with those of a
`Person`, as `$set` of the marshalled struct does. -/
def setFields (d : StoredDoc) (p : Person) : StoredDoc :=
  { d with name := p.name, age := p.age, address := p.address }

/-- Models `collection.UpdateOne` with filter `{_id: f}` and update
`{$set: person}`. Matching zero documents is success with matched count 0.
On the first matched document the three data fields are replaced; since a
zero `ID` is omitted by `bson:"_id,omitempty"`, the `$set` touches `_id`
only when the decoded body carried a non-zero id, and setting `_id` to a
different value on a matched document is a server-side error. -/
def updateOne (docs : List StoredDoc) (f : BsonId) (p : Person) :
    Except String (List StoredDoc × Nat) :=
  match docs with
  | [] => .ok ([], 0)
  | d :: rest =>
      if d.id = f then
        if p.id = zeroOid then .ok (setFields d p :: rest, 1)
        else if BsonId.oid p.id = d.id then .ok (setFields d p :: rest, 1)
        else .error msgImmutableId
      else (updateOne rest f p).map fun r => (d :: r.1, r.2)

/-- Models `collection.DeleteOne` with filter `{_id: f}`: removes the first
matching document; zero matches is still success. -/
def deleteOne : List StoredDoc → BsonId → List StoredDoc × Nat
  | [], _ => ([], 0)
  | d :: rest, f =>
      if d.id = f then (rest, 1)
      else
        let r := deleteOne rest f
        (d :: r.1, r.2)

/-- Models `GetPeople` (`main.go` lines 79-101): find all documents, decode
each into a `Person`, on any decode failure respond through `handleError`,
otherwise set `Content-Type: application/json` and encode the slice (status
200 written implicitly on the first body write). -/
def decodeAllDocs : List StoredDoc → Option (List Person)
  | [] => some []
  | d :: rest =>
      match decodeDoc d with
      | none => none
      | some p => (decodeAllDocs rest).map fun ps => p :: ps

/-- The `GetPeople` handler as a function of the store contents. -/
def GetPeople (docs : List StoredDoc) : HttpResponse :=
  match decodeAllDocs docs with
  | none => handleError msgDecodeDoc
  | some people => ⟨200, some ctJson, Body.jsonVal (encodeGoSlice people)⟩

/-- Models `GetPerson` (`main.go` lines 103-126): parse the path id with
`ObjectIDFromHex` (failure goes to `handleError` before any store access),
then `FindOne` on `{_id: objectID}`, whose `Decode` yields
`mongo.ErrNoDocuments` when nothing matched, then decode and return 200. -/
def GetPerson (docs : List StoredDoc) (idStr : String) : HttpResponse :=
  match objectIDFromHex idStr with
  | none => handleError msgInvalidHex
  | some objectID =>
      match findOne docs (BsonId.oid objectID) with
      | none => handleError msgNoDocuments
      | some d =>
          match decodeDoc d with
          | none => handleError msgDecodeDoc
          | some person => ⟨200, some ctJson, Body.jsonVal (encodePerson person)⟩

/-- Result of the `CreatePerson` handler: the new store contents and the
response, or a runtime panic from the unchecked type assertion
`result.InsertedID.(primitive.ObjectID)` (`main.go` line 144). -/
inductive CreateResult where
  | resp (docs : List StoredDoc) (r : HttpResponse)
  | panicked

/-- Models `CreatePerson` (`main.go` lines 128-149): decode the body,
`InsertOne` the person (an insert failure goes to `handleError`), assert
the `InsertedID` down to an ObjectID into `person.ID`, respond 201 with the
person encoded. `generated` is the ObjectID the driver would generate for
an omitted `_id`. -/
def CreatePerson (docs : List StoredDoc) (body : RequestBody) (generated : ObjectId) :
    CreateResult :=
  match decodeBody body with
  | none => .resp docs (handleError msgMalformedInput)
  | some person =>
      match insertOne docs person generated with
      | .error e => .resp docs (handleError e)
      | .ok ins =>
          match ins.2 with
          | .oid o =>
              .resp ins.1
                ⟨201, some ctJson, Body.jsonVal (encodePerson { person with id := o })⟩
          | .str _ => .panicked

/-- Models `UpdatePerson` (`main.go` lines 151-171): decode the body, then
`UpdateOne` with filter `{_id: id}` built from the RAW path string — the
handler never calls `ObjectIDFromHex` — and on success respond 200 echoing
the decoded input person (the matched count is discarded). Returns the new
store contents and the response. -/
def UpdatePerson (docs : List StoredDoc) (idStr : String) (body : RequestBody) :
    List StoredDoc × HttpResponse :=
  match decodeBody body with
  | none => (docs, handleError msgMalformedInput)
  | some person =>
      match updateOne docs (BsonId.str idStr) person with
      | .error e => (docs, handleError e)
      | .ok r => (r.1, ⟨200, some ctJson, Body.jsonVal (encodePerson person)⟩)

/-- Models `DeletePerson` (`main.go` lines 173-185): `DeleteOne` with filter
`{_id: id}` built from the RAW path string, then respond 204 with an empty
body and no `Content-Type` (the deleted count is discarded). -/
def DeletePerson (docs : List StoredDoc) (idStr : String) : List StoredDoc × HttpResponse :=
  let r := deleteOne docs (BsonId.str idStr)
  (r.1, ⟨204, none, Body.empty⟩)

theorem findOne_eq_none (docs : List StoredDoc) (f : BsonId)
    (h : ∀ d ∈ docs, d.id ≠ f) : findOne docs f = none := by
  induction docs with
  | nil => rfl
  | cons d rest ih =>
      rw [findOne, if_neg (h d (List.mem_cons_self d rest))]
      exact ih fun x hx => h x (List.mem_cons_of_mem _ hx)

theorem findOne_append_last (docs : List StoredDoc) (nd : StoredDoc) (f : BsonId)
    (h : ∀ d ∈ docs, d.id ≠ f) (hnd : nd.id = f) :
    findOne (docs ++ [nd]) f = some nd := by
  induction docs with
  | nil => simp [findOne, hnd]
  | cons d rest ih =>
      rw [List.cons_append, findOne, if_neg (h d (List.mem_cons_self d rest))]
      exact ih fun x hx => h x (List.mem_cons_of_mem _ hx)

theorem updateOne_no_match (docs : List StoredDoc) (f : BsonId) (p : Person)
    (h : ∀ d ∈ docs, d.id ≠ f) : updateOne docs f p = Except.ok (docs, 0) := by
  induction docs with
  | nil => rfl
  | cons d rest ih =>
      rw [updateOne, if_neg (h d (List.mem_cons_self d rest)),
          ih fun x hx => h x (List.mem_cons_of_mem _ hx)]
      rfl

theorem updateOne_error_msg (docs : List StoredDoc) (f : BsonId) (p : Person)
    (e : String) (h : updateOne docs f p = Except.error e) : e = msgImmutableId := by
  induction docs with
  | nil => exact absurd h (by simp [updateOne])
  | cons d rest ih =>
      rw [updateOne] at h
      by_cases hid : d.id = f
      · rw [if_pos hid] at h
        by_cases hz : p.id = zeroOid
        · rw [if_pos hz] at h; exact absurd h (by simp)
        · rw [if_neg hz] at h
          by_cases ho : BsonId.oid p.id = d.id
          · rw [if_pos ho] at h; exact absurd h (by simp)
          · rw [if_neg ho] at h
            exact by simpa using h.symm
      · rw [if_neg hid] at h
        cases hrec : updateOne rest f p with
        | ok r => rw [hrec] at h; exact absurd h (by simp [Except.map])
        | error e2 =>
            rw [hrec] at h
            have he : e2 = e := by simpa [Except.map] using h
            exact ih (he ▸ hrec)

theorem insertOne_fresh (docs : List StoredDoc) (p : Person) (generated : ObjectId)
    (h : ∀ d ∈ docs, d.id ≠ BsonId.oid (insertAssignedId p generated)) :
    insertOne docs p generated =
      Except.ok
        (docs ++ [⟨BsonId.oid (insertAssignedId p generated), p.name, p.age, p.address⟩],
          BsonId.oid (insertAssignedId p generated)) := by
  have hany : (docs.any fun d => d.id = BsonId.oid (insertAssignedId p generated)) = false := by
    simp only [List.any_eq_false, decide_eq_true_eq]
    exact h
  simp [insertOne, hany]

theorem insertOne_zeroId (docs : List StoredDoc) (nm : String) (ag : Int) (ad : String)
    (generated : ObjectId) (hfresh : ∀ d ∈ docs, d.id ≠ BsonId.oid generated) :
    insertOne docs ⟨zeroOid, nm, ag, ad⟩ generated =
      Except.ok (docs ++ [⟨BsonId.oid generated, nm, ag, ad⟩], BsonId.oid generated) := by
  have h := insertOne_fresh docs ⟨zeroOid, nm, ag, ad⟩ generated
    (by simpa [insertAssignedId] using hfresh)
  simpa [insertAssignedId] using h

theorem handleError_ne_of_msg_ne (m1 m2 : String) (h : ¬ m1 ++ "\n" = m2 ++ "\n") :
    handleError m1 ≠ handleError m2 := by
  intro he
  have hb := congrArg HttpResponse.body he
  simp only [handleError, Body.text.injEq] at hb
  exact h hb

/-- Whether a response body is a JSON array. -/
def bodyIsJsonArray : Body → Bool
  | .jsonVal (.arr _) => true
  | _ => false

/-- A concrete store-assigned ObjectID used in concrete runs. -/
def annOid : ObjectId := ⟨[0, 0, 0, 0, 0, 0, 0, 0, 0, 0, 0, 1]⟩

/-- A stored record with the store-assigned identifier `annOid`. -/
def annDoc : StoredDoc := ⟨BsonId.oid annOid, "Ann", 30, "1 Main St"⟩

/-- A well-formed create/update body without an id field. -/
def annBody : RequestBody := RequestBody.wellFormed none ("Ann") 30 ("1 Main St")

/-- The person `annBody` decodes to. -/
def annPerson : Person := ⟨zeroOid, "Ann", 30, "1 Main St"⟩

/-- A well-formed update body with different field values. -/
def bobBody : RequestBody := RequestBody.wellFormed none ("Bob") 41 ("2 Oak Ave")

/-- The person `bobBody` decodes to. -/
def bobPerson : Person := ⟨zeroOid, "Bob", 41, "2 Oak Ave"⟩

/-- A different ObjectID, standing for the one the driver would generate. -/
def otherOid : ObjectId := ⟨[1, 2, 3, 4, 5, 6, 7, 8, 9, 10, 11, 12]⟩

/-- A path id string that is not valid 24-character hex. -/
def badId : String := "zz"

/-- C1. Update at the string form of a store-assigned identifier: the filter
`{_id: idString}` compares the raw string against the stored ObjectID, no
document matches, the store is unchanged (Ann keeps her old fields), yet the
handler answers 200 echoing the input — the stored record is NOT replaced,
contradicting the update contract, while `GetPerson` on the same identifier
string does find the record, showing the identifier itself is fine. -/
theorem c1_update_by_assigned_id_is_silent_noop :
    (UpdatePerson [annDoc] (oidHex annOid) bobBody).1 = [annDoc] ∧
    (UpdatePerson [annDoc] (oidHex annOid) bobBody).2 =
      ⟨200, some ctJson, Body.jsonVal (encodePerson bobPerson)⟩ ∧
    findOne [annDoc] (BsonId.str (oidHex annOid)) = none ∧
    GetPerson [annDoc] (oidHex annOid) =
      ⟨200, some ctJson, Body.jsonVal (encodePerson ⟨annOid, "Ann", 30, "1 Main St"⟩)⟩ :=
  ⟨rfl, rfl, rfl, rfl⟩

/-- C4 counterexample. On the empty collection `GetPeople` does answer 200,
but its body is the JSON literal `null`, not a JSON array: the `people`
slice is still `nil` and `encoding/json` marshals a nil slice as `null`. -/
theorem c4_empty_collection_body_not_array_counterexample :
    (GetPeople []).status = 200 ∧
    (GetPeople []).body = Body.jsonVal Json.null ∧
    bodyIsJsonArray (GetPeople []).body = false :=
  ⟨rfl, rfl, rfl⟩

/-- C4 amended. On the empty collection `GetPeople` answers 200 with
`Content-Type: application/json` and body the JSON literal `null` (the
marshalling of the nil slice) — an empty result is not an error, but it is
not serialized as an empty JSON array. -/
theorem c4_empty_collection_returns_200_null :
    GetPeople [] = ⟨200, some ctJson, Body.jsonVal Json.null⟩ :=
  rfl

/-- C5 counterexample. `handleError` goes through `http.Error`, which sets
`Content-Type: text/plain; charset=utf-8` (the claim says the header is
unset) and writes the message followed by a newline (not the bare message). -/
theorem c5_error_content_type_is_set_counterexample :
    (handleError ("boom")).contentType = some ctTextPlain ∧
    (handleError ("boom")).contentType ≠ none ∧
    (handleError ("boom")).body = Body.text ("boom\n") :=
  ⟨rfl, by simp [handleError], rfl⟩

/-- C5 amended. Every failing request is answered through `handleError`:
status 500, `Content-Type` SET to `text/plain; charset=utf-8`, and the body
is the error message followed by a newline; the status is 500 for every
message, so no error cause is distinguishable from the status code. -/
theorem c5_error_response_shape (msg : String) :
    handleError msg = ⟨500, some ctTextPlain, Body.text (msg ++ "\n")⟩ ∧
    (handleError msg).status = 500 :=
  ⟨rfl, rfl⟩

/-- C3. Round trip: creating a person (body without id) inserts a document
under the driver-generated identifier and answers 201 with that person;
fetching by the hex form of that identifier then answers 200 with the very
same encoded person, so name, age and address of the Get result equal those
of the Create result. -/
theorem c3_create_then_get_roundtrip (docs : List StoredDoc) (nm : String) (ag : Int)
    (ad : String) (generated : ObjectId) (hwf : generated.wf)
    (hfresh : ∀ d ∈ docs, d.id ≠ BsonId.oid generated) :
    CreatePerson docs (RequestBody.wellFormed none nm ag ad) generated =
      CreateResult.resp (docs ++ [⟨BsonId.oid generated, nm, ag, ad⟩])
        ⟨201, some ctJson, Body.jsonVal (encodePerson ⟨generated, nm, ag, ad⟩)⟩ ∧
    GetPerson (docs ++ [⟨BsonId.oid generated, nm, ag, ad⟩]) (oidHex generated) =
      ⟨200, some ctJson, Body.jsonVal (encodePerson ⟨generated, nm, ag, ad⟩)⟩ := by
  constructor
  · simp [CreatePerson, decodeBody, decodeIdField,
      insertOne_zeroId docs nm ag ad generated hfresh]
  · have hfind : findOne (docs ++ [⟨BsonId.oid generated, nm, ag, ad⟩])
        (BsonId.oid generated) = some ⟨BsonId.oid generated, nm, ag, ad⟩ :=
      findOne_append_last docs ⟨BsonId.oid generated, nm, ag, ad⟩
        (BsonId.oid generated) hfresh rfl
    simp [GetPerson, objectIDFromHex_oidHex generated hwf, hfind, decodeDoc]

/-- C3 witness: concrete instantiation of `c3_create_then_get_roundtrip`
on the empty store. -/
theorem c3_create_then_get_roundtrip_witness :
    CreatePerson [] (RequestBody.wellFormed none ("Ann") 30 ("1 Main St")) annOid =
      CreateResult.resp [⟨BsonId.oid annOid, "Ann", 30, "1 Main St"⟩]
        ⟨201, some ctJson, Body.jsonVal (encodePerson ⟨annOid, "Ann", 30, "1 Main St"⟩)⟩ ∧
    GetPerson [⟨BsonId.oid annOid, "Ann", 30, "1 Main St"⟩] (oidHex annOid) =
      ⟨200, some ctJson, Body.jsonVal (encodePerson ⟨annOid, "Ann", 30, "1 Main St"⟩)⟩ := by
  have h := c3_create_then_get_roundtrip [] ("Ann") 30 ("1 Main St") annOid
    (by decide) (by simp)
  simpa using h

/-- C6. A syntactically invalid path identifier makes `GetPerson` fail
without consulting the store: the response is the same for every store
contents and equals the `ErrInvalidHex` error response, which is textually
and internally distinct from the `ErrNoDocuments` response produced by a
well-formed identifier that matches no record — while both surface as 500. -/
theorem c6_invalid_id_fails_before_store (idStr : String)
    (hbad : objectIDFromHex idStr = none) (docs docsB : List StoredDoc)
    (o : ObjectId) (hwf : o.wf) (habsent : ∀ d ∈ docsB, d.id ≠ BsonId.oid o) :
    GetPerson docs idStr = handleError msgInvalidHex ∧
    (∀ docsA : List StoredDoc, GetPerson docsA idStr = GetPerson docs idStr) ∧
    GetPerson docsB (oidHex o) = handleError msgNoDocuments ∧
    msgInvalidHex ≠ msgNoDocuments ∧
    (GetPerson docs idStr).status = 500 ∧
    (GetPerson docsB (oidHex o)).status = 500 := by
  have h1 : GetPerson docs idStr = handleError msgInvalidHex := by
    rw [GetPerson, hbad]
  have h3 : GetPerson docsB (oidHex o) = handleError msgNoDocuments := by
    simp [GetPerson, objectIDFromHex_oidHex o hwf, findOne_eq_none docsB _ habsent]
  refine ⟨h1, fun docsA => ?_, h3, by decide, by rw [h1]; rfl, by rw [h3]; rfl⟩
  rw [GetPerson, hbad, h1]

/-- C6 witness: concrete instantiation of `c6_invalid_id_fails_before_store`
with the malformed id `zz` and the absent well-formed id `annOid`. -/
theorem c6_invalid_id_fails_before_store_witness :
    GetPerson [annDoc] badId = handleError msgInvalidHex ∧
    (∀ docsA : List StoredDoc, GetPerson docsA badId = GetPerson [annDoc] badId) ∧
    GetPerson [] (oidHex annOid) = handleError msgNoDocuments ∧
    msgInvalidHex ≠ msgNoDocuments ∧
    (GetPerson [annDoc] badId).status = 500 ∧
    (GetPerson [] (oidHex annOid)).status = 500 :=
  c6_invalid_id_fails_before_store badId rfl [annDoc] [] annOid (by decide) (by simp)

/-- C7. Delete is idempotent at the HTTP surface: for every store contents
and every identifier string, deleting twice in a row answers 204 with an
empty body and no Content-Type both times — the handler discards the
deleted count and `DeleteOne` treats zero matches as success. -/
theorem c7_delete_twice_both_204 (docs : List StoredDoc) (idStr : String) :
    (DeletePerson docs idStr).2 = ⟨204, none, Body.empty⟩ ∧
    (DeletePerson (DeletePerson docs idStr).1 idStr).2 = ⟨204, none, Body.empty⟩ :=
  ⟨rfl, rfl⟩

/-- C8. Update at an identifier string matching no stored record: the
update matches zero documents, which `UpdatePerson` does not distinguish
from success — the store is unchanged and the handler answers 200 echoing
the decoded input person (it does not re-read the store). -/
theorem c8_update_nonexistent_id_succeeds (docs : List StoredDoc) (idStr : String)
    (body : RequestBody) (p : Person) (hdec : decodeBody body = some p)
    (hnomatch : ∀ d ∈ docs, d.id ≠ BsonId.str idStr) :
    UpdatePerson docs idStr body =
      (docs, ⟨200, some ctJson, Body.jsonVal (encodePerson p)⟩) := by
  simp [UpdatePerson, hdec, updateOne_no_match docs (BsonId.str idStr) p hnomatch]

/-- C8 witness: concrete instantiation of `c8_update_nonexistent_id_succeeds`
on a store that does not contain the targeted id. -/
theorem c8_update_nonexistent_id_succeeds_witness :
    UpdatePerson [annDoc] badId bobBody =
      ([annDoc], ⟨200, some ctJson, Body.jsonVal (encodePerson bobPerson)⟩) :=
  c8_update_nonexistent_id_succeeds [annDoc] badId bobBody bobPerson rfl (by decide)

/-- C9. `UpdatePerson` and `DeletePerson` never parse or validate the path
identifier: for EVERY identifier string (malformed ones included) the raw
string becomes the `_id` filter, a decodable body plus a successful store
call yields 200/204, delete always yields 204, and neither handler can ever
produce the `ErrInvalidHex` error response that `GetPerson` produces. -/
theorem c9_update_delete_never_validate_id (docs : List StoredDoc) (idStr : String)
    (body : RequestBody) (p : Person) (docs2 : List StoredDoc) (n : Nat)
    (hdec : decodeBody body = some p)
    (hok : updateOne docs (BsonId.str idStr) p = Except.ok (docs2, n)) :
    UpdatePerson docs idStr body =
      (docs2, ⟨200, some ctJson, Body.jsonVal (encodePerson p)⟩) ∧
    (DeletePerson docs idStr).2 = ⟨204, none, Body.empty⟩ ∧
    (∀ b : RequestBody, (UpdatePerson docs idStr b).2 ≠ handleError msgInvalidHex) ∧
    (DeletePerson docs idStr).2 ≠ handleError msgInvalidHex := by
  refine ⟨by simp [UpdatePerson, hdec, hok], rfl, fun b => ?_,
    by simp [DeletePerson, handleError]⟩
  cases hb : decodeBody b with
  | none =>
      have h2 : (UpdatePerson docs idStr b).2 = handleError msgMalformedInput := by
        simp [UpdatePerson, hb]
      rw [h2]
      exact handleError_ne_of_msg_ne msgMalformedInput msgInvalidHex (by decide)
  | some q =>
      cases hq : updateOne docs (BsonId.str idStr) q with
      | ok r =>
          have h2 : (UpdatePerson docs idStr b).2 =
              ⟨200, some ctJson, Body.jsonVal (encodePerson q)⟩ := by
            simp [UpdatePerson, hb, hq]
          rw [h2]
          intro h
          exact absurd (congrArg HttpResponse.status h) (by simp [handleError])
      | error e =>
          have he : e = msgImmutableId := updateOne_error_msg docs _ q e hq
          have h2 : (UpdatePerson docs idStr b).2 = handleError e := by
            simp [UpdatePerson, hb, hq]
          rw [h2, he]
          exact handleError_ne_of_msg_ne msgImmutableId msgInvalidHex (by decide)

/-- C9 witness: concrete instantiation of `c9_update_delete_never_validate_id`
at the malformed id `zz`. -/
theorem c9_update_delete_never_validate_id_witness :
    UpdatePerson [annDoc] badId bobBody =
      ([annDoc], ⟨200, some ctJson, Body.jsonVal (encodePerson bobPerson)⟩) ∧
    (DeletePerson [annDoc] badId).2 = ⟨204, none, Body.empty⟩ ∧
    (∀ b : RequestBody, (UpdatePerson [annDoc] badId b).2 ≠ handleError msgInvalidHex) ∧
    (DeletePerson [annDoc] badId).2 ≠ handleError msgInvalidHex :=
  c9_update_delete_never_validate_id [annDoc] badId bobBody bobPerson [annDoc] 0
    rfl rfl

/-- C10. The unchecked type assertion on `InsertedID` in `CreatePerson` is
safe: every successful insert of a `Person` reports an ObjectID as the
inserted identifier (either driver-generated or the non-zero `ID` of the
struct), so the handler never panics on any path, and whenever the body
decodes and the insert succeeds it completes with a 201 response. -/
theorem c10_create_assertion_never_panics (docs : List StoredDoc) (body : RequestBody)
    (generated : ObjectId) :
    (∀ (p : Person) (ins : List StoredDoc × BsonId),
      insertOne docs p generated = Except.ok ins → ∃ o : ObjectId, ins.2 = BsonId.oid o) ∧
    CreatePerson docs body generated ≠ CreateResult.panicked ∧
    (∀ (p : Person) (ins : List StoredDoc × BsonId), decodeBody body = some p →
      insertOne docs p generated = Except.ok ins →
      ∃ r : HttpResponse, CreatePerson docs body generated =
        CreateResult.resp ins.1 r ∧ r.status = 201) := by
  have hoid : ∀ (p : Person) (ins : List StoredDoc × BsonId),
      insertOne docs p generated = Except.ok ins → ∃ o : ObjectId, ins.2 = BsonId.oid o := by
    intro p ins hins
    unfold insertOne at hins
    split at hins
    · simp at hins
    · injection hins with h
      subst h
      exact ⟨insertAssignedId p generated, rfl⟩
  refine ⟨hoid, ?_, fun p ins hdec hins => ?_⟩
  · cases hb : decodeBody body with
    | none => simp [CreatePerson, hb]
    | some q =>
        cases hq : insertOne docs q generated with
        | error e => simp [CreatePerson, hb, hq]
        | ok ins =>
            obtain ⟨o, ho⟩ := hoid q ins hq
            simp [CreatePerson, hb, hq, ho]
  · obtain ⟨o, ho⟩ := hoid p ins hins
    refine ⟨⟨201, some ctJson, Body.jsonVal (encodePerson { p with id := o })⟩, ?_, rfl⟩
    simp [CreatePerson, hdec, hins, ho]

/-- C10 witness: concrete instantiation of `c10_create_assertion_never_panics`
on the empty store, where the insert succeeds. -/
theorem c10_create_assertion_never_panics_witness :
    CreatePerson [] annBody otherOid ≠ CreateResult.panicked ∧
    ∃ r : HttpResponse, CreatePerson [] annBody otherOid =
      CreateResult.resp [⟨BsonId.oid otherOid, "Ann", 30, "1 Main St"⟩] r ∧ r.status = 201 :=
  ⟨(c10_create_assertion_never_panics [] annBody otherOid).2.1,
   (c10_create_assertion_never_panics [] annBody otherOid).2.2 annPerson
     ([⟨BsonId.oid otherOid, "Ann", 30, "1 Main St"⟩], BsonId.oid otherOid) rfl rfl⟩
